import Mathlib

/-!
# Verification of the thirdweb SDK request-decoration utility

Shallow embedding of `getClientFetch` / `fetchWithHeaders`, `isThirdwebUrl`,
`isPayUrl`, `getPlatformHeaders` and `parseOs` from
`packages/thirdweb/src/utils/fetch.ts`, together with a model of the LRU
decision cache.

Strings are handled through their underlying `List Char` so that every
operation is structurally recursive and evaluates in the kernel.  JavaScript
truthiness of an optional string (`undefined`/`null`/`""` are falsy) is made
explicit, and the ambient environment (NODE_ENV, `globalThis.TW_AUTH_TOKEN`,
`navigator.userAgent`, bundle id) is passed as explicit parameters.
-/

/-- ASCII lower-casing of one character, as `String.prototype.toLowerCase`
acts on the ASCII range (the inputs relevant here are ASCII). -/
def lowerChar (c : Char) : Char :=
  if 'A' ≤ c && c ≤ 'Z' then Char.ofNat (c.toNat + 32) else c

/-- Lower-case a string character-wise (model of `toLowerCase`). -/
def toLowerStr (s : String) : String :=
  String.mk (s.data.map lowerChar)

/-- `p` occurs at the front of `l`. -/
def listStartsWith : List Char → List Char → Bool
  | _, [] => true
  | [], _ :: _ => false
  | c :: cs, d :: ds => c = d && listStartsWith cs ds

/-- Model of `String.prototype.startsWith`. -/
def strStartsWith (s p : String) : Bool :=
  listStartsWith s.data p.data

/-- Model of `String.prototype.endsWith`. -/
def strEndsWith (s p : String) : Bool :=
  listStartsWith s.data.reverse p.data.reverse

/-- The whitespace characters matched by the regex `/\s/` (ASCII range). -/
def isWhitespaceChar (c : Char) : Bool :=
  c = ' ' || c = '\t' || c = '\n' || c = '\r' || c = '\x0b' || c = '\x0c'

/-- JavaScript truthiness of an optional string: `undefined`, `null` and the
empty string are falsy. -/
def truthyStr : Option String → Bool
  | some s => !(s = "")
  | none => false

/-- Split a character list at the first occurrence of `sep`, returning the
part before and the part after; `none` when `sep` never occurs. -/
def breakOnSeq (sep : List Char) : List Char → Option (List Char × List Char)
  | [] => if sep.isEmpty then some ([], []) else none
  | c :: cs =>
    if listStartsWith (c :: cs) sep then some ([], (c :: cs).drop sep.length)
    else
      match breakOnSeq sep cs with
      | some (pre, post) => some (c :: pre, post)
      | none => none

/-- The suffix of `s` after its last `'@'` (the whole of `s` when there is
none): used to skip the userinfo part of a URL authority. -/
def afterLastAt (s : List Char) : List Char :=
  (s.reverse.takeWhile (fun c => c ≠ '@')).reverse

/-- Character allowed in a URL scheme. -/
def isSchemeChar (c : Char) : Bool :=
  c.isAlpha || c.isDigit || c = '+' || c = '-' || c = '.'

/-- Model of the hostname extraction performed by the platform builtin
`new URL(url).hostname` (a WHATWG parser): require `scheme://`, take the
authority up to the first `/`, `?` or `#`, drop any userinfo (`…@`) and any
port (`:…`), and lower-case the result.  `none` models the `TypeError`
thrown on a malformed URL. -/
def parseURLHostname (url : String) : Option String :=
  match breakOnSeq ("://".data) url.data with
  | none => none
  | some (scheme, rest) =>
    if scheme.isEmpty then none
    else if !(scheme.all isSchemeChar) then none
    else if !((scheme.headD 'a').isAlpha) then none
    else
      let authority := rest.takeWhile (fun c => !(c = '/' || c = '?' || c = '#'))
      let hostPort := afterLastAt authority
      let hostname := hostPort.takeWhile (fun c => c ≠ ':')
      if hostname.isEmpty then none else some (String.mk (hostname.map lowerChar))

/-- The fixed dot-anchored first-party suffixes (`THIRDWEB_DOMAINS` in the
source; each starts with `"."` so that e.g. `otherthirdweb.com` does not
match). -/
def THIRDWEB_DOMAINS : List String :=
  [".thirdweb.com", ".ipfscdn.io", ".thirdweb.dev", ".thirdweb-dev.com"]

/-- Modelled from the spec: the `LruMap` class (imported from
`./caching/lru.js`, whose source is not part of the excerpt) is a bounded
map from strings to booleans with a fixed capacity; when an insertion pushes
the size beyond capacity, exactly the least-recently-used entry is evicted.
`entries` is kept in recency order, most recently used first. -/
structure LruMap where
  capacity : Nat
  entries : List (String × Bool)

/-- Value stored under `k`, if any. -/
def LruMap.lookup (m : LruMap) (k : String) : Option Bool :=
  (m.entries.find? (fun p => p.1 = k)).map (fun p => p.2)

/-- Membership test (`Map.prototype.has`). -/
def LruMap.hasKey (m : LruMap) (k : String) : Bool :=
  m.entries.any (fun p => p.1 = k)

/-- Modelled from the spec: reading an entry refreshes its recency, moving
it to the front; a miss leaves the map unchanged. -/
def LruMap.refresh (m : LruMap) (k : String) : LruMap :=
  match m.entries.find? (fun p => p.1 = k) with
  | some p => ⟨m.capacity, p :: m.entries.filter (fun q => !(q.1 = k))⟩
  | none => m

/-- Modelled from the spec: insertion puts the entry at the front (most
recent); if the size then exceeds the capacity, the last entry — the
least-recently-used one — is evicted. -/
def LruMap.set (m : LruMap) (k : String) (v : Bool) : LruMap :=
  let entries := (k, v) :: m.entries.filter (fun q => !(q.1 = k))
  ⟨m.capacity, if m.capacity < entries.length then entries.dropLast else entries⟩

/-- The shared host decision cache, of fixed capacity 4096, initially
empty (`IS_THIRDWEB_URL_CACHE = new LruMap<boolean>(4096)`). -/
def IS_THIRDWEB_URL_CACHE : LruMap := ⟨4096, []⟩

/-- Embedding of `isThirdwebUrl(url)`.  The module-level cache and
`process.env.NODE_ENV` are passed explicitly; the updated cache is returned
alongside the verdict.  A cache hit is answered from the cache (which
refreshes recency); otherwise the URL is parsed — a parse failure (the
caught exception) yields `false` — the development/test `localhost` shortcut
is applied, and else the verdict is the dot-anchored suffix check.  Every
computed verdict is written to the cache before returning. -/
def isThirdwebUrl (nodeEnv : String) (cache : LruMap) (url : String) :
    Bool × LruMap :=
  match cache.lookup url with
  | some v => (v, cache.refresh url)
  | none =>
    match parseURLHostname url with
    | none => (false, cache.set url false)
    | some hostname =>
      if (nodeEnv = "development" || nodeEnv = "test") && hostname = "localhost" then
        (true, cache.set url true)
      else
        let is := THIRDWEB_DOMAINS.any (fun domain => strEndsWith hostname domain)
        (is, cache.set url is)

/-- Embedding of `isPayUrl(url)`: the hostname starts with `"pay."`;
malformed URLs yield `false`. -/
def isPayUrl (url : String) : Bool :=
  match parseURLHostname url with
  | some hostname => strStartsWith hostname "pay."
  | none => false

/-- `const SDK_NAME = "unified-sdk"`. -/
def SDK_NAME : String := "unified-sdk"

/-- Embedding of `parseOs(os)`: lower-case the token; any token whose
lower-cased form starts with `"win"` maps to `"win"`; otherwise the exact
(non-lowercased) token is matched against `"Mac OS"`, `"iOS"` and
`"Android OS"`; any other token falls back to the lower-cased form with
every whitespace character replaced by `'_'` (the regex
`osLowerCased.replace(/\s/gi, "_")`). -/
def parseOs (os : String) : String :=
  let osLowerCased := toLowerStr os
  if strStartsWith osLowerCased "win" then "win"
  else if os = "Mac OS" then "mac"
  else if os = "iOS" then "ios"
  else if os = "Android OS" then "android"
  else String.mk (osLowerCased.data.map (fun c => if isWhitespaceChar c then '_' else c))

/-- The ambient runtime facts `getPlatformHeaders` reads: the operating
system detected from `navigator.userAgent` (`none` when no browser-like
global is available), the bundle id exposed by an embedding host
(`globalThis.Application.applicationId`), the result of `detectPlatform()`
and the build-time `version` string. -/
structure PlatformEnv where
  userAgentOS : Option String
  bundleId : Option String
  platform : String
  version : String

/-- Embedding of `getPlatformHeaders()` (minus the process-lifetime
memoization, which is pure caching of this value): the ordered header pairs
`x-sdk-platform`, `x-sdk-version`, `x-sdk-os` (the parsed OS, or the literal
`"unknown"` when no user-agent OS is available), `x-sdk-name`, and
`x-bundle-id` only when a truthy bundle id is present. -/
def getPlatformHeaders (penv : PlatformEnv) : List (String × String) :=
  [("x-sdk-platform", penv.platform),
   ("x-sdk-version", penv.version),
   ("x-sdk-os", if truthyStr penv.userAgentOS then parseOs (penv.userAgentOS.getD "") else "unknown"),
   ("x-sdk-name", SDK_NAME)] ++
  (if truthyStr penv.bundleId then [("x-bundle-id", penv.bundleId.getD "")] else [])

/-- The client descriptor: optional `secretKey` and `clientId` fields
(`undefined` is `none`; JavaScript treats `""` as falsy). -/
structure ThirdwebClient where
  clientId : Option String
  secretKey : Option String

/-- The optional ecosystem descriptor (`id`, optional `partnerId`). -/
structure Ecosystem where
  id : String
  partnerId : Option String

/-- Model of `Headers.prototype.set`: header names are case-insensitive and
stored lower-cased; `set` overwrites an existing entry in place or appends a
new one. -/
def headersSet (hs : List (String × String)) (k v : String) :
    List (String × String) :=
  if hs.any (fun p => p.1 = k) then
    hs.map (fun p => if p.1 = k then (p.1, v) else p)
  else hs ++ [(k, v)]

/-- Model of the `new Headers(init)` constructor on a list of pairs: names
are normalized to lower case. -/
def newHeaders (init : List (String × String)) : List (String × String) :=
  init.map (fun p => (toLowerStr p.1, p.2))

/-- Is a header of this (lower-case) name present? -/
def hasHeader (hs : List (String × String)) (k : String) : Bool :=
  hs.any (fun p => p.1 = k)

/-- The value of the header named `k`, if present. -/
def getHeader (hs : List (String × String)) (k : String) : Option String :=
  (hs.find? (fun p => p.1 = k)).map (fun p => p.2)

/-- The three mutually exclusive credential header names. -/
def CREDENTIAL_HEADERS : List String :=
  ["authorization", "x-secret-key", "x-client-id"]

/-- How many distinct credential headers a header list carries. -/
def credentialCount (hs : List (String × String)) : Nat :=
  (CREDENTIAL_HEADERS.filter (fun k => hasHeader hs k)).length

/-- `const DEFAULT_REQUEST_TIMEOUT = 60000`. -/
def DEFAULT_REQUEST_TIMEOUT : Nat := 60000

/-- The ambient environment of one `fetchWithHeaders` call:
`process.env.NODE_ENV`, the external bearer token `getTWAuthToken()` reads
from `globalThis.TW_AUTH_TOKEN` (`none` when unset or not a string), and the
platform facts. -/
structure RequestEnv where
  nodeEnv : String
  authToken : Option String
  platformEnv : PlatformEnv

/-- The caller-supplied `init` argument: optional `requestTimeoutMs`
(`none` models the property being absent, so the destructuring default
applies) and optional extra headers. -/
structure RequestInitModel where
  requestTimeoutMs : Option Nat
  headers : Option (List (String × String))

/-- The credential block of `fetchWithHeaders`: set `authorization: Bearer
<token>` when a truthy external token exists and the URL is not a pay URL
(`if (authToken && !isPayUrl(url))`); else `x-secret-key` when the client
has a truthy secret key; else `x-client-id` when the client has a truthy
client id; else set nothing. -/
def setCredentialHeader (client : ThirdwebClient) (authToken : Option String)
    (pay : Bool) (h : List (String × String)) : List (String × String) :=
  if truthyStr authToken && !pay then
    headersSet h "authorization" ("Bearer " ++ authToken.getD "")
  else if truthyStr client.secretKey then
    headersSet h "x-secret-key" (client.secretKey.getD "")
  else if truthyStr client.clientId then
    headersSet h "x-client-id" (client.clientId.getD "")
  else h

/-- The ecosystem block of `fetchWithHeaders`: when an ecosystem was
supplied, set `x-ecosystem-id` and, when a truthy partner id is present,
`x-ecosystem-partner-id`. -/
def setEcosystemHeaders (ecosystem : Option Ecosystem)
    (h : List (String × String)) : List (String × String) :=
  match ecosystem with
  | some eco =>
    let h := headersSet h "x-ecosystem-id" eco.id
    if truthyStr eco.partnerId then
      headersSet h "x-ecosystem-partner-id" (eco.partnerId.getD "")
    else h
  | none => h

/-- The platform block of `fetchWithHeaders`: `headers.set` every pair of
`getPlatformHeaders()` in order. -/
def setPlatformHeaders (penv : PlatformEnv) (h : List (String × String)) :
    List (String × String) :=
  (getPlatformHeaders penv).foldl (fun acc p => headersSet acc p.1 p.2) h

/-- Embedding of the header-composition phase of `fetchWithHeaders`:
normalize any caller-supplied headers into a `Headers` collection; when the
URL is first-party, apply in order the credential block, the ecosystem
block and the platform block.  Non-first-party URLs pass the (normalized)
caller headers through untouched.  Returns the headers handed to `fetch`
together with the updated decision cache. -/
def composeHeaders (client : ThirdwebClient) (ecosystem : Option Ecosystem)
    (env : RequestEnv) (cache : LruMap) (url : String)
    (initHeaders : Option (List (String × String))) :
    Option (List (String × String)) × LruMap :=
  let headers0 := initHeaders.map newHeaders
  let r := isThirdwebUrl env.nodeEnv cache url
  if r.1 then
    (some (setPlatformHeaders env.platformEnv
      (setEcosystemHeaders ecosystem
        (setCredentialHeader client env.authToken (isPayUrl url)
          (headers0.getD [])))), r.2)
  else
    (headers0, r.2)

/-- How one call of `fetchWithHeaders` settles. -/
inductive FetchOutcome
  | success
  | transportFailure
  | aborted
deriving DecidableEq

/-- The observable timeout-related events of one `fetchWithHeaders` call. -/
inductive FetchEvent
  | createSignal
  | scheduleTimer (ms : Nat)
  | issueRequest (withSignal : Bool)
  | settle (o : FetchOutcome)
  | clearTimer
deriving DecidableEq

/-- The resolved timeout: `requestTimeoutMs = DEFAULT_REQUEST_TIMEOUT`
destructuring — the default applies exactly when the property is absent. -/
def resolveTimeout (requestTimeoutMs : Option Nat) : Nat :=
  requestTimeoutMs.getD DEFAULT_REQUEST_TIMEOUT

/-- Embedding of the timeout lifecycle of `fetchWithHeaders`: when the
resolved `requestTimeoutMs` is truthy (nonzero), an `AbortController` is
created and a timer scheduled, and the request carries its signal; the
`.finally` handler clears the timer after settlement (`if (abortTimeout)
clearTimeout(abortTimeout)`) on every outcome.  A falsy timeout creates no
signal and no timer. -/
def fetchTimeoutTrace (requestTimeoutMs : Option Nat) (outcome : FetchOutcome) :
    List FetchEvent :=
  let t := resolveTimeout requestTimeoutMs
  (if t ≠ 0 then [FetchEvent.createSignal, FetchEvent.scheduleTimer t] else []) ++
  [FetchEvent.issueRequest (t ≠ 0), FetchEvent.settle outcome] ++
  (if t ≠ 0 then [FetchEvent.clearTimer] else [])

/-- Is a timer still pending after the given event sequence? -/
def timerPendingAfter (events : List FetchEvent) : Bool :=
  events.foldl
    (fun pending e =>
      match e with
      | FetchEvent.scheduleTimer _ => true
      | FetchEvent.clearTimer => false
      | _ => pending)
    false

/-! ## Helper lemmas about the LRU cache model -/

theorem length_filter_lt_of_mem_neg {α : Type} (p : α → Bool) (a : α) :
    ∀ l : List α, a ∈ l → p a = false → (l.filter p).length < l.length := by
  intro l
  induction l with
  | nil => intro h; exact absurd h (List.not_mem_nil a)
  | cons b bs ih =>
    intro hmem hpa
    rcases List.mem_cons.mp hmem with hab | hmem
    · subst hab
      rw [List.filter_cons_of_neg (by simp [hpa])]
      have := List.length_filter_le p bs
      simpa using Nat.lt_succ_of_le this
    · cases hb : p b with
      | true =>
        rw [List.filter_cons_of_pos hb]
        simpa using ih hmem hpa
      | false =>
        rw [List.filter_cons_of_neg (by simp [hb])]
        exact Nat.lt_succ_of_lt (ih hmem hpa)

theorem LruMap.lookup_set (m : LruMap) (k : String) (v : Bool)
    (hcap : 0 < m.capacity) : (m.set k v).lookup k = some v := by
  unfold LruMap.set LruMap.lookup
  cases hl : m.entries.filter (fun q => !(q.1 = k)) with
  | nil =>
    have hnot : ¬ (m.capacity < ((k, v) :: ([] : List (String × Bool))).length) := by
      simp; omega
    simp only [hl, if_neg hnot]
    simp [List.find?]
  | cons a as =>
    by_cases h : m.capacity < ((k, v) :: a :: as).length
    · simp only [hl, if_pos h, List.dropLast_cons₂]
      simp [List.find?]
    · simp only [hl, if_neg h]
      simp [List.find?]

theorem LruMap.lookup_refresh (m : LruMap) (k : String) :
    (m.refresh k).lookup k = m.lookup k := by
  unfold LruMap.refresh LruMap.lookup
  cases hf : m.entries.find? (fun p => p.1 = k) with
  | none => simp [hf]
  | some p =>
    have hp : (p.1 = k) := by simpa using List.find?_some hf
    simp [List.find?_cons_of_pos, hp]

theorem LruMap.length_set_le (m : LruMap) (k : String) (v : Bool)
    (hinv : m.entries.length ≤ m.capacity) :
    (m.set k v).entries.length ≤ m.capacity := by
  have hlf := List.length_filter_le (fun q => !(q.1 = k)) m.entries
  simp only [LruMap.set]
  split_ifs with h
  · simp only [List.length_dropLast, List.length_cons]
    omega
  · simp only [List.length_cons] at h ⊢
    omega

theorem LruMap.length_refresh_le (m : LruMap) (k : String) :
    (m.refresh k).entries.length ≤ m.entries.length := by
  unfold LruMap.refresh
  cases hf : m.entries.find? (fun p => p.1 = k) with
  | none => exact Nat.le_refl _
  | some p =>
    have hpk : (p.1 = k) := by simpa using List.find?_some hf
    have hmem : p ∈ m.entries := List.mem_of_find?_eq_some hf
    have hlt := length_filter_lt_of_mem_neg (fun q => !(q.1 = k)) p m.entries hmem
      (by simp [hpk])
    simpa using hlt

theorem LruMap.set_of_fresh_full (m : LruMap) (k : String) (v : Bool)
    (hfresh : m.hasKey k = false) (hfull : m.entries.length = m.capacity)
    (hcap : 0 < m.capacity) :
    (m.set k v).entries = (k, v) :: m.entries.dropLast ∧
    (m.set k v).entries.length = m.capacity := by
  have hfilter : m.entries.filter (fun q => !(q.1 = k)) = m.entries := by
    rw [List.filter_eq_self]
    intro a ha
    unfold LruMap.hasKey at hfresh
    have : ¬ (a.1 = k) := by
      intro hak
      have : m.entries.any (fun p => p.1 = k) = true :=
        List.any_eq_true.mpr ⟨a, ha, by simp [hak]⟩
      rw [hfresh] at this
      exact Bool.false_ne_true this
    simp [this]
  simp only [LruMap.set, hfilter]
  split_ifs with hcond
  · cases hE : m.entries with
    | nil => rw [hE] at hfull; simp at hfull; omega
    | cons a as =>
      rw [List.dropLast_cons₂]
      refine ⟨rfl, ?_⟩
      simp only [List.length_cons, List.length_dropLast]
      rw [hE] at hfull
      simp only [List.length_cons] at hfull
      omega
  · exfalso
    simp only [List.length_cons, hfull] at hcond
    omega

/-- Helper: every call of `isThirdwebUrl` leaves its verdict readable in the
returned cache under the queried URL (on a hit the entry was already there
and is refreshed; on every cold path the verdict is written by `set`). -/
theorem isThirdwebUrl_writes_cache (nodeEnv : String) (cache : LruMap)
    (url : String) (hcap : 0 < cache.capacity) :
    ((isThirdwebUrl nodeEnv cache url).2).lookup url =
      some (isThirdwebUrl nodeEnv cache url).1 := by
  rw [isThirdwebUrl]
  cases hl : cache.lookup url with
  | some v => simpa using (LruMap.lookup_refresh cache url).trans hl
  | none =>
    cases hp : parseURLHostname url with
    | none => simpa using LruMap.lookup_set cache url false hcap
    | some hostname =>
      dsimp only
      split_ifs with h
      · simpa using LruMap.lookup_set cache url true hcap
      · simpa using LruMap.lookup_set cache url _ hcap

/-- C5: for every input string on which URL parsing fails (and that is not
already cached), `isThirdwebUrl` returns `false` — the failure is swallowed,
the classifier being a total function — and the `false` verdict is written
into the decision cache before returning. -/
theorem isThirdwebUrl_parse_failure_swallowed (nodeEnv : String)
    (cache : LruMap) (url : String)
    (hmiss : cache.lookup url = none)
    (hparse : parseURLHostname url = none)
    (hcap : 0 < cache.capacity) :
    (isThirdwebUrl nodeEnv cache url).1 = false ∧
    (isThirdwebUrl nodeEnv cache url).2 = cache.set url false ∧
    ((isThirdwebUrl nodeEnv cache url).2).lookup url = some false := by
  have hres : isThirdwebUrl nodeEnv cache url = (false, cache.set url false) := by
    rw [isThirdwebUrl, hmiss, hparse]
  rw [hres]
  exact ⟨rfl, rfl, LruMap.lookup_set cache url false hcap⟩

/-- Witness for C5 at the unparseable string `"not a url"` against the
initial cache. -/
theorem isThirdwebUrl_parse_failure_swallowed_witness :
    (isThirdwebUrl "production" IS_THIRDWEB_URL_CACHE "not a url").1 = false ∧
    (isThirdwebUrl "production" IS_THIRDWEB_URL_CACHE "not a url").2 =
      IS_THIRDWEB_URL_CACHE.set "not a url" false ∧
    ((isThirdwebUrl "production" IS_THIRDWEB_URL_CACHE "not a url").2).lookup
      "not a url" = some false :=
  isThirdwebUrl_parse_failure_swallowed "production" IS_THIRDWEB_URL_CACHE
    "not a url" (by decide) (by decide) (by decide)

/-- C9: in the development/test execution modes, a well-formed URL whose
hostname is exactly `localhost` (not already cached) is classified as
first-party, and that `true` verdict is cached. -/
theorem isThirdwebUrl_localhost_development (nodeEnv : String)
    (cache : LruMap) (url hostname : String)
    (henv : nodeEnv = "development" ∨ nodeEnv = "test")
    (hmiss : cache.lookup url = none)
    (hparse : parseURLHostname url = some hostname)
    (hhost : hostname = "localhost")
    (hcap : 0 < cache.capacity) :
    (isThirdwebUrl nodeEnv cache url).1 = true ∧
    ((isThirdwebUrl nodeEnv cache url).2).lookup url = some true := by
  subst hhost
  have hres : isThirdwebUrl nodeEnv cache url = (true, cache.set url true) := by
    rcases henv with rfl | rfl <;>
      simp [isThirdwebUrl, hmiss, hparse]
  rw [hres]
  exact ⟨rfl, LruMap.lookup_set cache url true hcap⟩

/-- Witness for C9 at `http://localhost:3000/x` in `development` mode. -/
theorem isThirdwebUrl_localhost_development_witness :
    (isThirdwebUrl "development" IS_THIRDWEB_URL_CACHE
      "http://localhost:3000/x").1 = true ∧
    ((isThirdwebUrl "development" IS_THIRDWEB_URL_CACHE
      "http://localhost:3000/x").2).lookup "http://localhost:3000/x" =
      some true :=
  isThirdwebUrl_localhost_development "development" IS_THIRDWEB_URL_CACHE
    "http://localhost:3000/x" "localhost" (Or.inl rfl) (by decide) (by decide)
    (by decide) (by decide)

/-- C6: every call of `isThirdwebUrl` leaves its verdict in the returned
cache (written on each cold path — suffix match, localhost shortcut and
parse failure — and already present on a hit), so a second classification of
the identical string returns the same verdict, served from the cache hit
path. -/
theorem isThirdwebUrl_second_call_cached (nodeEnv : String) (cache : LruMap)
    (url : String) (hcap : 0 < cache.capacity) :
    ((isThirdwebUrl nodeEnv cache url).2).lookup url =
      some (isThirdwebUrl nodeEnv cache url).1 ∧
    (isThirdwebUrl nodeEnv ((isThirdwebUrl nodeEnv cache url).2) url).1 =
      (isThirdwebUrl nodeEnv cache url).1 := by
  have h1 := isThirdwebUrl_writes_cache nodeEnv cache url hcap
  refine ⟨h1, ?_⟩
  generalize hr : isThirdwebUrl nodeEnv cache url = r at h1 ⊢
  rw [isThirdwebUrl, h1]

/-- Witness for C6 at a concrete first-party URL against the initial
cache. -/
theorem isThirdwebUrl_second_call_cached_witness :
    ((isThirdwebUrl "production" IS_THIRDWEB_URL_CACHE
      "https://api.thirdweb.com/v1").2).lookup "https://api.thirdweb.com/v1" =
      some (isThirdwebUrl "production" IS_THIRDWEB_URL_CACHE
        "https://api.thirdweb.com/v1").1 ∧
    (isThirdwebUrl "production"
      ((isThirdwebUrl "production" IS_THIRDWEB_URL_CACHE
        "https://api.thirdweb.com/v1").2) "https://api.thirdweb.com/v1").1 =
      (isThirdwebUrl "production" IS_THIRDWEB_URL_CACHE
        "https://api.thirdweb.com/v1").1 :=
  isThirdwebUrl_second_call_cached "production" IS_THIRDWEB_URL_CACHE
    "https://api.thirdweb.com/v1" (by decide)

/-- C7 (cache model is reconstructed from the spec, the `LruMap` source not
being part of the excerpt): the decision cache is declared with fixed
capacity 4096; `set` never grows the entry list beyond the capacity and
`refresh` never grows it at all, so the cache holds at most its capacity at
all times; and inserting a fresh key into a full cache keeps the size at
capacity and yields exactly the new entry followed by all previous entries
except the least-recently-used (last) one. -/
theorem lruCache_capacity_and_eviction :
    IS_THIRDWEB_URL_CACHE.capacity = 4096 ∧
    (∀ (m : LruMap) (k : String) (v : Bool),
      m.entries.length ≤ m.capacity →
      (m.set k v).entries.length ≤ m.capacity) ∧
    (∀ (m : LruMap) (k : String),
      (m.refresh k).entries.length ≤ m.entries.length) ∧
    (∀ (m : LruMap) (k : String) (v : Bool),
      m.hasKey k = false → m.entries.length = m.capacity → 0 < m.capacity →
      (m.set k v).entries = (k, v) :: m.entries.dropLast ∧
      (m.set k v).entries.length = m.capacity) :=
  ⟨rfl, fun m k v h => LruMap.length_set_le m k v h,
    fun m k => LruMap.length_refresh_le m k,
    fun m k v h1 h2 h3 => LruMap.set_of_fresh_full m k v h1 h2 h3⟩

/-- Witness for C7: inserting a third distinct key into a full
capacity-two cache evicts exactly the least-recently-used entry `("b", false)`. -/
theorem lruCache_capacity_and_eviction_witness :
    (LruMap.set ⟨2, [("a", true), ("b", false)]⟩ "c" true).entries =
      [("c", true), ("a", true)] ∧
    (LruMap.set ⟨2, [("a", true), ("b", false)]⟩ "c" true).entries.length = 2 := by
  have h := lruCache_capacity_and_eviction.2.2.2 ⟨2, [("a", true), ("b", false)]⟩
    "c" true (by decide) (by decide) (by decide)
  exact ⟨by rw [h.1]; rfl, h.2⟩

/-- C3: outside the localhost development shortcut, the classifier answers
a well-formed, not-yet-cached URL `true` exactly when its hostname ends
with one of the four fixed dot-anchored suffixes. -/
theorem isThirdwebUrl_suffix_iff (nodeEnv : String) (cache : LruMap)
    (url hostname : String)
    (hmiss : cache.lookup url = none)
    (hparse : parseURLHostname url = some hostname)
    (hshort : hostname = "localhost" →
      nodeEnv ≠ "development" ∧ nodeEnv ≠ "test") :
    ((isThirdwebUrl nodeEnv cache url).1 = true ↔
      (strEndsWith hostname ".thirdweb.com" = true ∨
       strEndsWith hostname ".ipfscdn.io" = true ∨
       strEndsWith hostname ".thirdweb.dev" = true ∨
       strEndsWith hostname ".thirdweb-dev.com" = true)) := by
  rw [isThirdwebUrl, hmiss, hparse]
  have hcond : ((decide (nodeEnv = "development") || decide (nodeEnv = "test")) &&
      decide (hostname = "localhost")) = false := by
    by_cases hl : hostname = "localhost"
    · obtain ⟨h1, h2⟩ := hshort hl
      simp [h1, h2]
    · simp [hl]
  dsimp only
  simp only [hcond, Bool.false_eq_true, if_false, THIRDWEB_DOMAINS,
    List.any_cons, List.any_nil, Bool.or_eq_true, Bool.or_false]

/-- Witness for C3: `api.thirdweb.com` is classified first-party while the
dot-anchoring rejects `evilthirdweb.com` and `otherthirdweb.com`. -/
theorem isThirdwebUrl_suffix_iff_witness :
    (isThirdwebUrl "production" IS_THIRDWEB_URL_CACHE
      "https://api.thirdweb.com/v1").1 = true ∧
    (isThirdwebUrl "production" IS_THIRDWEB_URL_CACHE
      "https://evilthirdweb.com/").1 = false ∧
    (isThirdwebUrl "production" IS_THIRDWEB_URL_CACHE
      "https://otherthirdweb.com/").1 = false := by
  refine ⟨?_, ?_, ?_⟩
  · exact (isThirdwebUrl_suffix_iff "production" IS_THIRDWEB_URL_CACHE
      "https://api.thirdweb.com/v1" "api.thirdweb.com" (by decide) (by decide)
      (fun hl => absurd hl (by decide))).mpr (by decide)
  · have h := isThirdwebUrl_suffix_iff "production" IS_THIRDWEB_URL_CACHE
      "https://evilthirdweb.com/" "evilthirdweb.com" (by decide) (by decide)
      (fun hl => absurd hl (by decide))
    cases hb : (isThirdwebUrl "production" IS_THIRDWEB_URL_CACHE
        "https://evilthirdweb.com/").1 with
    | false => rfl
    | true => exact absurd (h.mp hb) (by decide)
  · have h := isThirdwebUrl_suffix_iff "production" IS_THIRDWEB_URL_CACHE
      "https://otherthirdweb.com/" "otherthirdweb.com" (by decide) (by decide)
      (fun hl => absurd hl (by decide))
    cases hb : (isThirdwebUrl "production" IS_THIRDWEB_URL_CACHE
        "https://otherthirdweb.com/").1 with
    | false => rfl
    | true => exact absurd (h.mp hb) (by decide)

/-- Helper: when the classifier says "not first-party", the composed
headers are exactly the (normalized) caller-supplied ones. -/
theorem composeHeaders_not_first_party (client : ThirdwebClient)
    (ecosystem : Option Ecosystem) (env : RequestEnv) (cache : LruMap)
    (url : String) (initHeaders : Option (List (String × String)))
    (hnfp : (isThirdwebUrl env.nodeEnv cache url).1 = false) :
    (composeHeaders client ecosystem env cache url initHeaders).1 =
      initHeaders.map newHeaders := by
  simp [composeHeaders, hnfp]

/-- C2: when the URL is classified not first-party, the wrapper attaches
nothing: the headers handed to the transport are exactly the caller-supplied
headers (as a `Headers` collection, i.e. with names lower-cased), verbatim
when the caller already used canonical lower-case names, and absent entirely
when the caller supplied none. -/
theorem composeHeaders_non_first_party_passthrough (client : ThirdwebClient)
    (ecosystem : Option Ecosystem) (env : RequestEnv) (cache : LruMap)
    (url : String) (initHeaders : Option (List (String × String)))
    (hnfp : (isThirdwebUrl env.nodeEnv cache url).1 = false) :
    (composeHeaders client ecosystem env cache url initHeaders).1 =
      initHeaders.map newHeaders ∧
    (initHeaders = none →
      (composeHeaders client ecosystem env cache url initHeaders).1 = none) ∧
    (∀ hs, initHeaders = some hs → (∀ p ∈ hs, toLowerStr p.1 = p.1) →
      (composeHeaders client ecosystem env cache url initHeaders).1 = some hs) := by
  have h := composeHeaders_not_first_party client ecosystem env cache url
    initHeaders hnfp
  refine ⟨h, ?_, ?_⟩
  · intro hn
    rw [h, hn]
    rfl
  · intro hs hinit hlow
    rw [h, hinit]
    show some (newHeaders hs) = some hs
    have heq : ∀ p ∈ hs, (toLowerStr p.1, p.2) = p := by
      intro p hp
      rw [hlow p hp]
    exact congrArg some ((List.map_congr_left heq).trans (List.map_id hs))

/-- Witness for C2 at the non-first-party URL `https://example.com/api`. -/
theorem composeHeaders_non_first_party_passthrough_witness :
    (composeHeaders ⟨some "cid", some "sk"⟩ none
      ⟨"production", some "tok", ⟨none, none, "browser", "1.0.0"⟩⟩
      IS_THIRDWEB_URL_CACHE "https://example.com/api"
      (some [("x-custom", "v")])).1 = some [("x-custom", "v")] :=
  (composeHeaders_non_first_party_passthrough ⟨some "cid", some "sk"⟩ none
    ⟨"production", some "tok", ⟨none, none, "browser", "1.0.0"⟩⟩
    IS_THIRDWEB_URL_CACHE "https://example.com/api"
    (some [("x-custom", "v")]) (by decide)).2.2 [("x-custom", "v")] rfl
    (by decide)

/-- C10: a well-formed URL whose hostname is exactly one of the first-party
apex domains (no subdomain label) is classified not first-party — the
dot-anchored suffixes require a label before them — so such a request
receives no injected headers. -/
theorem isThirdwebUrl_apex_not_first_party (client : ThirdwebClient)
    (ecosystem : Option Ecosystem) (env : RequestEnv) (cache : LruMap)
    (url hostname : String) (initHeaders : Option (List (String × String)))
    (hmiss : cache.lookup url = none)
    (hparse : parseURLHostname url = some hostname)
    (hapex : hostname = "thirdweb.com" ∨ hostname = "ipfscdn.io" ∨
      hostname = "thirdweb.dev" ∨ hostname = "thirdweb-dev.com") :
    (isThirdwebUrl env.nodeEnv cache url).1 = false ∧
    (composeHeaders client ecosystem env cache url initHeaders).1 =
      initHeaders.map newHeaders := by
  have hfalse : (isThirdwebUrl env.nodeEnv cache url).1 = false := by
    rw [isThirdwebUrl, hmiss, hparse]
    rcases hapex with rfl | rfl | rfl | rfl <;>
    · dsimp only
      rw [if_neg (by simp)]
      dsimp only
      decide
  exact ⟨hfalse,
    composeHeaders_not_first_party client ecosystem env cache url initHeaders
      hfalse⟩

/-- Witness for C10 at `https://thirdweb.com/` (apex, no subdomain). -/
theorem isThirdwebUrl_apex_not_first_party_witness :
    (isThirdwebUrl "production" IS_THIRDWEB_URL_CACHE
      "https://thirdweb.com/").1 = false ∧
    (composeHeaders ⟨some "cid", none⟩ none
      ⟨"production", some "tok", ⟨none, none, "browser", "1.0.0"⟩⟩
      IS_THIRDWEB_URL_CACHE "https://thirdweb.com/" none).1 = none :=
  have h := isThirdwebUrl_apex_not_first_party ⟨some "cid", none⟩ none
    ⟨"production", some "tok", ⟨none, none, "browser", "1.0.0"⟩⟩
    IS_THIRDWEB_URL_CACHE "https://thirdweb.com/" "thirdweb.com" none
    (by decide) (by decide) (Or.inl rfl)
  ⟨h.1, h.2⟩

/-- C4: the timeout defaults to 60000 ms when `requestTimeoutMs` is absent;
a falsy (zero) value creates no cancellation signal and no timer at all; a
truthy value schedules the timer and attaches the signal; and on every
completion path — success, transport failure or cancellation — the pending
timer is cleared, so no timer is left pending after settlement. -/
theorem fetchWithHeaders_timeout_contract :
    resolveTimeout none = 60000 ∧
    (∀ o : FetchOutcome, fetchTimeoutTrace (some 0) o =
      [FetchEvent.issueRequest false, FetchEvent.settle o]) ∧
    (∀ (t : Option Nat) (o : FetchOutcome), resolveTimeout t ≠ 0 →
      FetchEvent.createSignal ∈ fetchTimeoutTrace t o ∧
      FetchEvent.scheduleTimer (resolveTimeout t) ∈ fetchTimeoutTrace t o ∧
      FetchEvent.issueRequest true ∈ fetchTimeoutTrace t o ∧
      FetchEvent.clearTimer ∈ fetchTimeoutTrace t o) ∧
    (∀ (t : Option Nat) (o : FetchOutcome),
      timerPendingAfter (fetchTimeoutTrace t o) = false) := by
  refine ⟨rfl, fun o => rfl, ?_, ?_⟩
  · intro t o ht
    refine ⟨?_, ?_, ?_, ?_⟩ <;> simp [fetchTimeoutTrace, ht]
  · intro t o
    by_cases ht : resolveTimeout t = 0 <;>
      simp [fetchTimeoutTrace, timerPendingAfter, ht]

/-- Witness for C4: a 50 ms timeout schedules and then clears the timer on
an aborted request; `requestTimeoutMs` absent resolves to 60000. -/
theorem fetchWithHeaders_timeout_contract_witness :
    resolveTimeout none = 60000 ∧
    FetchEvent.scheduleTimer 50 ∈
      fetchTimeoutTrace (some 50) FetchOutcome.aborted ∧
    timerPendingAfter (fetchTimeoutTrace (some 50) FetchOutcome.aborted) =
      false := by
  refine ⟨fetchWithHeaders_timeout_contract.1, ?_,
    fetchWithHeaders_timeout_contract.2.2.2 (some 50) FetchOutcome.aborted⟩
  exact (fetchWithHeaders_timeout_contract.2.2.1 (some 50) FetchOutcome.aborted
    (by decide)).2.1

/-- C8 counterexample: the claim describes the fallback as "the lower-cased
form with internal whitespace runs replaced by underscores".  On the token
`" A  B"` that reading predicts `" a_b"` (one underscore per internal run,
leading whitespace untouched) or at most `" a__b"` (one underscore per
internal whitespace character); the code's `replace(/\s/gi, "_")` replaces
every whitespace character, including the leading one, giving `"_a__b"`. -/
theorem parseOs_whitespace_counterexample :
    parseOs " A  B" = "_a__b" ∧ ("_a__b" : String) ≠ " a_b" ∧
    ("_a__b" : String) ≠ " a__b" := by
  decide

/-- C8 (amended): `parseOs` maps any token whose lower-cased form starts
with `"win"` to `"win"`, the exact tokens `"Mac OS"`/`"iOS"`/`"Android OS"`
to `"mac"`/`"ios"`/`"android"`, and any other token to its lower-cased form
with every whitespace character (leading, internal or trailing) replaced by
an underscore; and when no user-agent OS is available the `x-sdk-os` header
value is the literal `"unknown"`. -/
theorem parseOs_rule_table :
    (∀ os : String, strStartsWith (toLowerStr os) "win" = true →
      parseOs os = "win") ∧
    parseOs "Mac OS" = "mac" ∧
    parseOs "iOS" = "ios" ∧
    parseOs "Android OS" = "android" ∧
    (∀ os : String, strStartsWith (toLowerStr os) "win" = false →
      os ≠ "Mac OS" → os ≠ "iOS" → os ≠ "Android OS" →
      parseOs os = String.mk ((toLowerStr os).data.map
        (fun c => if isWhitespaceChar c then '_' else c))) ∧
    parseOs "Windows NT 10.0" = "win" ∧
    parseOs "Some Weird OS" = "some_weird_os" ∧
    (∀ penv : PlatformEnv, truthyStr penv.userAgentOS = false →
      getHeader (getPlatformHeaders penv) "x-sdk-os" = some "unknown") := by
  refine ⟨?_, by decide, by decide, by decide, ?_, by decide, by decide, ?_⟩
  · intro os h
    simp [parseOs, h]
  · intro os h h1 h2 h3
    simp [parseOs, h, h1, h2, h3]
  · intro penv h
    cases hb : truthyStr penv.bundleId <;>
      simp [getPlatformHeaders, getHeader, h, hb, List.find?]

/-- Witness for C8 (amended) on the tokens named by the claim. -/
theorem parseOs_rule_table_witness :
    parseOs "Windows NT 10.0" = "win" ∧ parseOs "Mac OS" = "mac" ∧
    parseOs "Some Weird OS" = "some_weird_os" ∧
    getHeader (getPlatformHeaders ⟨none, none, "browser", "1.0.0"⟩)
      "x-sdk-os" = some "unknown" :=
  ⟨parseOs_rule_table.2.2.2.2.2.1, parseOs_rule_table.2.1,
    parseOs_rule_table.2.2.2.2.2.2.1,
    parseOs_rule_table.2.2.2.2.2.2.2 ⟨none, none, "browser", "1.0.0"⟩
      (by decide)⟩

/-! ## Helper lemmas about the Headers model -/

theorem fst_headersSet_replace (k v : String) (p : String × String) :
    (if p.1 = k then (p.1, v) else p).1 = p.1 := by
  split_ifs <;> rfl

theorem hasHeader_headersSet_self (hs : List (String × String)) (k v : String) :
    hasHeader (headersSet hs k v) k = true := by
  rw [headersSet]
  split_ifs with h
  · rw [hasHeader, List.any_map]
    have hc : ((fun p => decide (p.1 = k)) ∘
        (fun p => if p.1 = k then (p.1, v) else p)) =
        fun p : String × String => decide (p.1 = k) := by
      funext p
      simp [Function.comp, fst_headersSet_replace]
    rw [hc]
    exact h
  · rw [hasHeader, List.any_append]
    simp

theorem hasHeader_headersSet_other (hs : List (String × String))
    (k v k' : String) (hne : k' ≠ k) :
    hasHeader (headersSet hs k v) k' = hasHeader hs k' := by
  rw [headersSet]
  split_ifs with h
  · rw [hasHeader, List.any_map, hasHeader]
    congr 1
    funext p
    simp [Function.comp, fst_headersSet_replace]
  · rw [hasHeader, List.any_append, hasHeader]
    have hsingle : (([(k, v)] : List (String × String)).any
        fun p => decide (p.1 = k')) = false := by
      simp [Ne.symm hne]
    rw [hsingle, Bool.or_false]

theorem getHeader_headersSet_self (hs : List (String × String))
    (k v : String) : getHeader (headersSet hs k v) k = some v := by
  rw [headersSet]
  split_ifs with h
  · rw [getHeader, List.find?_map]
    have hc : ((fun p => decide (p.1 = k)) ∘
        (fun p => if p.1 = k then (p.1, v) else p)) =
        fun p : String × String => decide (p.1 = k) := by
      funext p
      simp [Function.comp, fst_headersSet_replace]
    rw [hc]
    have hsome : (hs.find? fun p => decide (p.1 = k)).isSome := by
      rw [List.find?_isSome]
      obtain ⟨p, hp, hpk⟩ := List.any_eq_true.mp h
      exact ⟨p, hp, hpk⟩
    obtain ⟨q, hq⟩ := Option.isSome_iff_exists.mp hsome
    have hqk : q.1 = k := by simpa using List.find?_some hq
    rw [hq]
    simp [hqk]
  · rw [getHeader, List.find?_append]
    have hnone : hs.find? (fun p => decide (p.1 = k)) = none := by
      rw [List.find?_eq_none]
      intro x hx
      simp only [decide_eq_true_eq]
      intro hxk
      exact h (List.any_eq_true.mpr ⟨x, hx, by simp [hxk]⟩)
    rw [hnone]
    simp [List.find?]

theorem getHeader_headersSet_other (hs : List (String × String))
    (k v k' : String) (hne : k' ≠ k) :
    getHeader (headersSet hs k v) k' = getHeader hs k' := by
  rw [headersSet]
  split_ifs with h
  · rw [getHeader, List.find?_map, getHeader]
    have hc : ((fun p => decide (p.1 = k')) ∘
        (fun p => if p.1 = k then (p.1, v) else p)) =
        fun p : String × String => decide (p.1 = k') := by
      funext p
      simp [Function.comp, fst_headersSet_replace]
    rw [hc]
    cases hf : hs.find? (fun p => decide (p.1 = k')) with
    | none => rfl
    | some q =>
      have hqk : q.1 = k' := by simpa using List.find?_some hf
      have hqknot : ¬ (q.1 = k) := by
        rw [hqk]
        exact hne
      simp [hqknot]
  · rw [getHeader, List.find?_append, getHeader]
    have hsingle : (([(k, v)] : List (String × String)).find?
        fun p => decide (p.1 = k')) = none := by
      simp [List.find?, Ne.symm hne]
    rw [hsingle]
    cases hs.find? (fun p => decide (p.1 = k')) <;> rfl

theorem hasHeader_foldl_headersSet (k : String) :
    ∀ (ps : List (String × String)), (∀ p ∈ ps, p.1 ≠ k) →
    ∀ hs, hasHeader (ps.foldl (fun acc p => headersSet acc p.1 p.2) hs) k =
      hasHeader hs k := by
  intro ps
  induction ps with
  | nil => intro _ hs; rfl
  | cons q qs ih =>
    intro hk hs
    rw [List.foldl_cons]
    rw [ih (fun p hp => hk p (List.mem_cons_of_mem q hp)) (headersSet hs q.1 q.2)]
    exact hasHeader_headersSet_other hs q.1 q.2 k
      (Ne.symm (hk q (List.mem_cons_self q qs)))

theorem getHeader_foldl_headersSet (k : String) :
    ∀ (ps : List (String × String)), (∀ p ∈ ps, p.1 ≠ k) →
    ∀ hs, getHeader (ps.foldl (fun acc p => headersSet acc p.1 p.2) hs) k =
      getHeader hs k := by
  intro ps
  induction ps with
  | nil => intro _ hs; rfl
  | cons q qs ih =>
    intro hk hs
    rw [List.foldl_cons]
    rw [ih (fun p hp => hk p (List.mem_cons_of_mem q hp)) (headersSet hs q.1 q.2)]
    exact getHeader_headersSet_other hs q.1 q.2 k
      (Ne.symm (hk q (List.mem_cons_self q qs)))

theorem getPlatformHeaders_keys (penv : PlatformEnv) :
    ∀ p ∈ getPlatformHeaders penv, p.1 = "x-sdk-platform" ∨
      p.1 = "x-sdk-version" ∨ p.1 = "x-sdk-os" ∨ p.1 = "x-sdk-name" ∨
      p.1 = "x-bundle-id" := by
  intro p hp
  rw [getPlatformHeaders] at hp
  rcases List.mem_append.mp hp with h | h
  · simp only [List.mem_cons, List.not_mem_nil, or_false] at h
    rcases h with rfl | rfl | rfl | rfl <;> simp
  · split_ifs at h
    · simp only [List.mem_cons, List.not_mem_nil, or_false] at h
      subst h
      simp
    · exact absurd h (List.not_mem_nil p)

/-- A credential header name is never a platform or ecosystem header name,
so the later blocks do not disturb the credential chosen earlier. -/
theorem credential_preserved_by_later_blocks (eco : Option Ecosystem)
    (penv : PlatformEnv) (hs : List (String × String)) (k : String)
    (hk : k = "authorization" ∨ k = "x-secret-key" ∨ k = "x-client-id") :
    hasHeader (setPlatformHeaders penv (setEcosystemHeaders eco hs)) k =
      hasHeader hs k ∧
    getHeader (setPlatformHeaders penv (setEcosystemHeaders eco hs)) k =
      getHeader hs k := by
  have hkp : ∀ p ∈ getPlatformHeaders penv, p.1 ≠ k := by
    intro p hp
    have := getPlatformHeaders_keys penv p hp
    rcases hk with rfl | rfl | rfl <;>
      rcases this with h | h | h | h | h <;> simp [h]
  have hk1 : k ≠ "x-ecosystem-id" := by
    rcases hk with rfl | rfl | rfl <;> decide
  have hk2 : k ≠ "x-ecosystem-partner-id" := by
    rcases hk with rfl | rfl | rfl <;> decide
  have heco : hasHeader (setEcosystemHeaders eco hs) k = hasHeader hs k ∧
      getHeader (setEcosystemHeaders eco hs) k = getHeader hs k := by
    cases eco with
    | none => exact ⟨rfl, rfl⟩
    | some e =>
      rw [setEcosystemHeaders]
      split_ifs with hp
      · constructor
        · rw [hasHeader_headersSet_other _ _ _ _ hk2,
            hasHeader_headersSet_other _ _ _ _ hk1]
        · rw [getHeader_headersSet_other _ _ _ _ hk2,
            getHeader_headersSet_other _ _ _ _ hk1]
      · exact ⟨hasHeader_headersSet_other _ _ _ _ hk1,
          getHeader_headersSet_other _ _ _ _ hk1⟩
  constructor
  · rw [setPlatformHeaders, hasHeader_foldl_headersSet k _ hkp]
    exact heco.1
  · rw [setPlatformHeaders, getHeader_foldl_headersSet k _ hkp]
    exact heco.2

theorem setCredentialHeader_bearer (client : ThirdwebClient)
    (tok : Option String) (pay : Bool) (h0 : List (String × String))
    (htok : truthyStr tok = true) (hpay : pay = false) :
    setCredentialHeader client tok pay h0 =
      headersSet h0 "authorization" ("Bearer " ++ tok.getD "") := by
  rw [setCredentialHeader, if_pos (by simp [htok, hpay])]

theorem setCredentialHeader_secret (client : ThirdwebClient)
    (tok : Option String) (pay : Bool) (h0 : List (String × String))
    (hno : truthyStr tok = false ∨ pay = true)
    (hsec : truthyStr client.secretKey = true) :
    setCredentialHeader client tok pay h0 =
      headersSet h0 "x-secret-key" (client.secretKey.getD "") := by
  rw [setCredentialHeader, if_neg (by rcases hno with h | h <;> simp [h]),
    if_pos hsec]

theorem setCredentialHeader_clientId (client : ThirdwebClient)
    (tok : Option String) (pay : Bool) (h0 : List (String × String))
    (hno : truthyStr tok = false ∨ pay = true)
    (hsec : truthyStr client.secretKey = false)
    (hcid : truthyStr client.clientId = true) :
    setCredentialHeader client tok pay h0 =
      headersSet h0 "x-client-id" (client.clientId.getD "") := by
  rw [setCredentialHeader, if_neg (by rcases hno with h | h <;> simp [h]),
    if_neg (by simp [hsec]), if_pos hcid]

theorem setCredentialHeader_skip (client : ThirdwebClient)
    (tok : Option String) (pay : Bool) (h0 : List (String × String))
    (hno : truthyStr tok = false ∨ pay = true)
    (hsec : truthyStr client.secretKey = false)
    (hcid : truthyStr client.clientId = false) :
    setCredentialHeader client tok pay h0 = h0 := by
  rw [setCredentialHeader, if_neg (by rcases hno with h | h <;> simp [h]),
    if_neg (by simp [hsec]), if_neg (by simp [hcid])]

theorem composeHeaders_first_party (client : ThirdwebClient)
    (ecosystem : Option Ecosystem) (env : RequestEnv) (cache : LruMap)
    (url : String) (initHeaders : Option (List (String × String)))
    (hfp : (isThirdwebUrl env.nodeEnv cache url).1 = true) :
    (composeHeaders client ecosystem env cache url initHeaders).1 =
      some (setPlatformHeaders env.platformEnv (setEcosystemHeaders ecosystem
        (setCredentialHeader client env.authToken (isPayUrl url)
          ((initHeaders.map newHeaders).getD [])))) := by
  simp [composeHeaders, hfp]

theorem credentialCount_of_has (hs : List (String × String)) :
    credentialCount hs =
      (if hasHeader hs "authorization" then 1 else 0) +
      (if hasHeader hs "x-secret-key" then 1 else 0) +
      (if hasHeader hs "x-client-id" then 1 else 0) := by
  cases h1 : hasHeader hs "authorization" <;>
    cases h2 : hasHeader hs "x-secret-key" <;>
      cases h3 : hasHeader hs "x-client-id" <;>
        simp [credentialCount, CREDENTIAL_HEADERS, List.filter, h1, h2, h3]


/-- C1: on a first-party request (caller headers carrying no credential
header of their own), the wrapper sets at most one credential header, chosen
by priority: `authorization: Bearer <token>` when an external bearer token
is available and the URL is not a pay URL; else `x-secret-key` when the
client has one; else `x-client-id` when the client has one.  The bearer path
is never taken for a pay URL — a pay-endpoint request never carries an
`authorization` header — and no two credential headers are ever combined. -/
theorem fetchWithHeaders_credential_priority (client : ThirdwebClient)
    (ecosystem : Option Ecosystem) (env : RequestEnv) (cache : LruMap)
    (url : String) (initHeaders : Option (List (String × String)))
    (hfp : (isThirdwebUrl env.nodeEnv cache url).1 = true)
    (hclean :
      hasHeader ((initHeaders.map newHeaders).getD []) "authorization" = false ∧
      hasHeader ((initHeaders.map newHeaders).getD []) "x-secret-key" = false ∧
      hasHeader ((initHeaders.map newHeaders).getD []) "x-client-id" = false) :
    (composeHeaders client ecosystem env cache url initHeaders).1.isSome = true ∧
    credentialCount
      ((composeHeaders client ecosystem env cache url initHeaders).1.getD []) ≤ 1 ∧
    (isPayUrl url = true →
      hasHeader ((composeHeaders client ecosystem env cache url initHeaders).1.getD [])
        "authorization" = false) ∧
    (∀ t, env.authToken = some t → t ≠ "" → isPayUrl url = false →
      getHeader ((composeHeaders client ecosystem env cache url initHeaders).1.getD [])
        "authorization" = some ("Bearer " ++ t) ∧
      hasHeader ((composeHeaders client ecosystem env cache url initHeaders).1.getD [])
        "x-secret-key" = false ∧
      hasHeader ((composeHeaders client ecosystem env cache url initHeaders).1.getD [])
        "x-client-id" = false) ∧
    (∀ s, (truthyStr env.authToken = false ∨ isPayUrl url = true) →
      client.secretKey = some s → s ≠ "" →
      getHeader ((composeHeaders client ecosystem env cache url initHeaders).1.getD [])
        "x-secret-key" = some s ∧
      hasHeader ((composeHeaders client ecosystem env cache url initHeaders).1.getD [])
        "authorization" = false ∧
      hasHeader ((composeHeaders client ecosystem env cache url initHeaders).1.getD [])
        "x-client-id" = false) ∧
    (∀ cid, (truthyStr env.authToken = false ∨ isPayUrl url = true) →
      truthyStr client.secretKey = false → client.clientId = some cid → cid ≠ "" →
      getHeader ((composeHeaders client ecosystem env cache url initHeaders).1.getD [])
        "x-client-id" = some cid ∧
      hasHeader ((composeHeaders client ecosystem env cache url initHeaders).1.getD [])
        "authorization" = false ∧
      hasHeader ((composeHeaders client ecosystem env cache url initHeaders).1.getD [])
        "x-secret-key" = false) := by
  obtain ⟨hA, hS, hC⟩ := hclean
  have neSA : ("x-secret-key" : String) ≠ "authorization" := by decide
  have neCA : ("x-client-id" : String) ≠ "authorization" := by decide
  have neAS : ("authorization" : String) ≠ "x-secret-key" := by decide
  have neCS : ("x-client-id" : String) ≠ "x-secret-key" := by decide
  have neAC : ("authorization" : String) ≠ "x-client-id" := by decide
  have neSC : ("x-secret-key" : String) ≠ "x-client-id" := by decide
  have hcf := composeHeaders_first_party client ecosystem env cache url
    initHeaders hfp
  have hout : (composeHeaders client ecosystem env cache url initHeaders).1.getD []
      = setPlatformHeaders env.platformEnv (setEcosystemHeaders ecosystem
        (setCredentialHeader client env.authToken (isPayUrl url)
          ((initHeaders.map newHeaders).getD []))) := by
    rw [hcf]
    rfl
  have hpresA := credential_preserved_by_later_blocks ecosystem env.platformEnv
    (setCredentialHeader client env.authToken (isPayUrl url)
      ((initHeaders.map newHeaders).getD [])) "authorization" (Or.inl rfl)
  have hpresS := credential_preserved_by_later_blocks ecosystem env.platformEnv
    (setCredentialHeader client env.authToken (isPayUrl url)
      ((initHeaders.map newHeaders).getD [])) "x-secret-key" (Or.inr (Or.inl rfl))
  have hpresC := credential_preserved_by_later_blocks ecosystem env.platformEnv
    (setCredentialHeader client env.authToken (isPayUrl url)
      ((initHeaders.map newHeaders).getD [])) "x-client-id"
    (Or.inr (Or.inr rfl))
  have hPayCred : isPayUrl url = true →
      hasHeader (setCredentialHeader client env.authToken (isPayUrl url)
        ((initHeaders.map newHeaders).getD [])) "authorization" = false := by
    intro hpay
    rw [setCredentialHeader]
    split_ifs with h1 h2 h3
    · exfalso
      rw [hpay] at h1
      simp at h1
    · exact (hasHeader_headersSet_other _ _ _ _ neAS).trans hA
    · exact (hasHeader_headersSet_other _ _ _ _ neAC).trans hA
    · exact hA
  have hCnt : credentialCount
      (setCredentialHeader client env.authToken (isPayUrl url)
        ((initHeaders.map newHeaders).getD [])) ≤ 1 := by
    by_cases h1 : (truthyStr env.authToken && !(isPayUrl url)) = true
    · have ht : truthyStr env.authToken = true := by
        cases hq : truthyStr env.authToken
        · rw [hq] at h1
          simp at h1
        · rfl
      have hp' : isPayUrl url = false := by
        cases hq : isPayUrl url
        · rfl
        · rw [hq] at h1
          simp at h1
      rw [setCredentialHeader_bearer client env.authToken (isPayUrl url)
        ((initHeaders.map newHeaders).getD []) ht hp']
      rw [credentialCount_of_has, hasHeader_headersSet_self,
        hasHeader_headersSet_other _ _ _ _ neSA,
        hasHeader_headersSet_other _ _ _ _ neCA, hS, hC]
      simp
    · have hno : truthyStr env.authToken = false ∨ isPayUrl url = true := by
        cases ha : truthyStr env.authToken
        · exact Or.inl rfl
        · cases hb : isPayUrl url
          · exfalso
            apply h1
            rw [ha, hb]
            rfl
          · exact Or.inr rfl
      by_cases h2 : truthyStr client.secretKey = true
      · rw [setCredentialHeader_secret client env.authToken (isPayUrl url)
          ((initHeaders.map newHeaders).getD []) hno h2]
        rw [credentialCount_of_has, hasHeader_headersSet_self,
          hasHeader_headersSet_other _ _ _ _ neAS,
          hasHeader_headersSet_other _ _ _ _ neCS, hA, hC]
        simp
      · have h2' : truthyStr client.secretKey = false := by
          simpa using h2
        by_cases h3 : truthyStr client.clientId = true
        · rw [setCredentialHeader_clientId client env.authToken (isPayUrl url)
            ((initHeaders.map newHeaders).getD []) hno h2' h3]
          rw [credentialCount_of_has, hasHeader_headersSet_self,
            hasHeader_headersSet_other _ _ _ _ neAC,
            hasHeader_headersSet_other _ _ _ _ neSC, hA, hS]
          simp
        · have h3' : truthyStr client.clientId = false := by
            simpa using h3
          rw [setCredentialHeader_skip client env.authToken (isPayUrl url)
            ((initHeaders.map newHeaders).getD []) hno h2' h3']
          rw [credentialCount_of_has, hA, hS, hC]
          simp
  have hCntOut : credentialCount
      ((composeHeaders client ecosystem env cache url initHeaders).1.getD [])
      ≤ 1 := by
    rw [credentialCount_of_has, hout, hpresA.1, hpresS.1, hpresC.1,
      ← credentialCount_of_has]
    exact hCnt
  refine ⟨by rw [hcf]; rfl, hCntOut, ?_, ?_, ?_, ?_⟩
  · intro hpay
    rw [hout, hpresA.1]
    exact hPayCred hpay
  · intro t ht htne hpay
    have htok : truthyStr env.authToken = true := by
      rw [ht]
      simp [truthyStr, htne]
    have hbranch := setCredentialHeader_bearer client env.authToken
      (isPayUrl url) ((initHeaders.map newHeaders).getD []) htok hpay
    refine ⟨?_, ?_, ?_⟩
    · rw [hout, hpresA.2, hbranch, getHeader_headersSet_self, ht]
      rfl
    · rw [hout, hpresS.1, hbranch, hasHeader_headersSet_other _ _ _ _ neSA]
      exact hS
    · rw [hout, hpresC.1, hbranch, hasHeader_headersSet_other _ _ _ _ neCA]
      exact hC
  · intro s hno hsk hsne
    have hsec : truthyStr client.secretKey = true := by
      rw [hsk]
      simp [truthyStr, hsne]
    have hbranch := setCredentialHeader_secret client env.authToken
      (isPayUrl url) ((initHeaders.map newHeaders).getD []) hno hsec
    refine ⟨?_, ?_, ?_⟩
    · rw [hout, hpresS.2, hbranch, getHeader_headersSet_self, hsk]
      rfl
    · rw [hout, hpresA.1, hbranch, hasHeader_headersSet_other _ _ _ _ neAS]
      exact hA
    · rw [hout, hpresC.1, hbranch, hasHeader_headersSet_other _ _ _ _ neCS]
      exact hC
  · intro cid hno hsec hck hcne
    have hcid : truthyStr client.clientId = true := by
      rw [hck]
      simp [truthyStr, hcne]
    have hbranch := setCredentialHeader_clientId client env.authToken
      (isPayUrl url) ((initHeaders.map newHeaders).getD []) hno hsec hcid
    refine ⟨?_, ?_, ?_⟩
    · rw [hout, hpresC.2, hbranch, getHeader_headersSet_self, hck]
      rfl
    · rw [hout, hpresA.1, hbranch, hasHeader_headersSet_other _ _ _ _ neAC]
      exact hA
    · rw [hout, hpresS.1, hbranch, hasHeader_headersSet_other _ _ _ _ neSC]
      exact hS

/-- Witness for C1: with an external bearer token present but a
`pay.thirdweb.com` target, the request carries `x-secret-key` (the client's
secret key), no `authorization` header, no `x-client-id`, and at most one
credential header in total. -/
theorem fetchWithHeaders_credential_priority_witness :
    getHeader ((composeHeaders ⟨none, some "sk"⟩ none
      ⟨"production", some "tok", ⟨none, none, "browser", "1.0.0"⟩⟩
      IS_THIRDWEB_URL_CACHE "https://pay.thirdweb.com/v1" none).1.getD [])
      "x-secret-key" = some "sk" ∧
    hasHeader ((composeHeaders ⟨none, some "sk"⟩ none
      ⟨"production", some "tok", ⟨none, none, "browser", "1.0.0"⟩⟩
      IS_THIRDWEB_URL_CACHE "https://pay.thirdweb.com/v1" none).1.getD [])
      "authorization" = false ∧
    hasHeader ((composeHeaders ⟨none, some "sk"⟩ none
      ⟨"production", some "tok", ⟨none, none, "browser", "1.0.0"⟩⟩
      IS_THIRDWEB_URL_CACHE "https://pay.thirdweb.com/v1" none).1.getD [])
      "x-client-id" = false ∧
    credentialCount ((composeHeaders ⟨none, some "sk"⟩ none
      ⟨"production", some "tok", ⟨none, none, "browser", "1.0.0"⟩⟩
      IS_THIRDWEB_URL_CACHE "https://pay.thirdweb.com/v1" none).1.getD [])
      ≤ 1 := by
  have h := fetchWithHeaders_credential_priority ⟨none, some "sk"⟩ none
    ⟨"production", some "tok", ⟨none, none, "browser", "1.0.0"⟩⟩
    IS_THIRDWEB_URL_CACHE "https://pay.thirdweb.com/v1" none
    (by decide) ⟨by decide, by decide, by decide⟩
  have hs := h.2.2.2.2.1 "sk" (Or.inr (by decide)) rfl (by decide)
  exact ⟨hs.1, hs.2.1, hs.2.2, h.2.1⟩
